import Mathlib

/-!
Verification of the content-generation orchestration core (`AIService`).

Shallow embedding conventions:
* JavaScript strings are modelled as `List Char` (`JStr`); `js` injects Lean
  string literals.  `.length` on a `JStr` counts characters, which agrees with
  JavaScript's UTF-16 length on the BMP inputs at stake here.
* JavaScript number arithmetic on the confidence score is modelled as exact
  rational arithmetic (`ℚ`), with `NaN` represented explicitly as `none` in
  `Option ℚ`.  The only way the source produces `NaN` is the division
  `keywordMatches / request.keywords.length` when `keywords` is the empty
  array (`[]` is truthy in JavaScript, so the branch is entered), after which
  `NaN` propagates through `+`, `*` and `Math.min`.
* The opaque provider call is modelled by passing the provider's outcome for
  each issued request as an explicit argument (`Except GenError JStr`); a
  thrown provider error is `.error`, a returned text is `.ok`.
-/

abbrev JStr := List Char

def js (s : String) : JStr := s.data

/-- The JavaScript `WhiteSpace`/`LineTerminator` characters recognised by
`String.prototype.trim` (the common ones; exotic Unicode space separators are
omitted, no input in this development contains them). -/
def jsIsWs (c : Char) : Bool :=
  c = ' ' || c = '\t' || c = '\n' || c = '\r' ||
  c = '\x0b' || c = '\x0c' || c = '\u00A0'

/-- Drop trailing characters satisfying `p`. -/
def dropRightWhileP (p : Char → Bool) (l : JStr) : JStr :=
  ((l.reverse.dropWhile p)).reverse

/-- Embedding of JavaScript `String.prototype.trim`. -/
def jsTrim (l : JStr) : JStr :=
  dropRightWhileP jsIsWs (l.dropWhile jsIsWs)

/-- Embedding of JavaScript `String.prototype.split` with a one-character
separator: `splitChar sep s` returns the (possibly empty) chunks between
occurrences of `sep`. -/
def splitChar (sep : Char) : JStr → List JStr
  | [] => [[]]
  | c :: cs =>
    match splitChar sep cs with
    | [] => [[]]
    | r :: rs => if c = sep then [] :: r :: rs else (c :: r) :: rs

/-- Embedding of JavaScript `Array.prototype.join(sep)`. -/
def joinSep (sep : JStr) : List JStr → JStr
  | [] => []
  | [x] => x
  | x :: y :: rest => x ++ sep ++ joinSep sep (y :: rest)

/-- Prefix test: `jsStartsWith s p` holds when `p` is a prefix of `s`. -/
def jsStartsWith : JStr → JStr → Bool
  | _, [] => true
  | [], _ :: _ => false
  | c :: cs, d :: ds => c = d && jsStartsWith cs ds

/-- Embedding of JavaScript `String.prototype.includes` (substring test). -/
def jsIncludes (hay needle : JStr) : Bool :=
  hay.tails.any (fun t => jsStartsWith t needle)

/-- Embedding of JavaScript `String.prototype.toLowerCase` (ASCII case map,
which covers every input in this development). -/
def jsToLower (l : JStr) : JStr := l.map Char.toLower

/-- Embedding of JavaScript `str.replace('#', '')`: remove the FIRST
occurrence of `'#'` anywhere in the string (not only a leading one). -/
def removeFirstHash : JStr → JStr
  | [] => []
  | c :: cs => if c = '#' then cs else c :: removeFirstHash cs

/-- Embedding of the regular-expression test `/^[A-Z]/.test(s)`. -/
def startsUpper : JStr → Bool
  | [] => false
  | c :: _ => 'A' ≤ c && c ≤ 'Z'

/-! ## Data model (`GenerateContentRequest`, `ContentSuggestion`) -/

inductive ContentType
  | campaign | post | email | social
deriving DecidableEq

inductive Tone
  | professional | casual | enthusiastic | friendly
deriving DecidableEq

inductive LengthOpt
  | short | medium | long
deriving DecidableEq

structure GenerateContentRequest where
  prompt : JStr
  contentType : ContentType
  tone : Option Tone := none
  length : Option LengthOpt := none
  targetAudience : Option JStr := none
  keywords : Option (List JStr) := none
deriving DecidableEq

/-- A `confidence` of `none` models a JavaScript `NaN` confidence. -/
structure ContentSuggestion where
  content : JStr
  title : Option JStr := none
  hashtags : Option (List JStr) := none
  confidence : Option ℚ := none
  alternatives : Option (List JStr) := none
deriving DecidableEq

inductive GenError
  | generationFailure (msg : String)
deriving DecidableEq

deriving instance DecidableEq for Except

/-! ## `AIService.buildSystemPrompt` / `AIService.buildUserPrompt` -/

def contentTypeInstructions : ContentType → JStr
  | .campaign => js "You are a marketing campaign strategist. Create comprehensive campaign content that drives engagement and conversions."
  | .post => js "You are a social media expert. Create engaging social media posts that capture attention and encourage interaction."
  | .email => js "You are an email marketing specialist. Create compelling email content that drives opens, clicks, and conversions."
  | .social => js "You are a social media content creator. Create shareable content optimized for social media platforms."

def toneInstructions : Tone → JStr
  | .professional => js "Use a professional, authoritative tone."
  | .casual => js "Use a casual, conversational tone."
  | .enthusiastic => js "Use an enthusiastic, energetic tone."
  | .friendly => js "Use a friendly, approachable tone."

def contentTypeName : ContentType → JStr
  | .campaign => js "campaign"
  | .post => js "post"
  | .email => js "email"
  | .social => js "social"

def lengthInstructions : LengthOpt → JStr
  | .short => js "Keep it concise (1-2 sentences)"
  | .medium => js "Medium length (2-4 sentences)"
  | .long => js "Comprehensive length (multiple paragraphs)"

/-- Embedding of `AIService.buildSystemPrompt` — the sequence of `+=`
appends on `systemPrompt`. -/
def buildSystemPrompt (request : GenerateContentRequest) : JStr :=
  let s0 := contentTypeInstructions request.contentType
  let s1 :=
    match request.tone with
    | some t => s0 ++ js " " ++ toneInstructions t
    | none => s0
  let s2 :=
    match request.targetAudience with
    | some a => s1 ++ js " Target audience: " ++ a ++ js "."
    | none => s1
  s2 ++ js " Provide high-quality, original content that is engaging and relevant."

/-- Embedding of `AIService.buildUserPrompt`. -/
def buildUserPrompt (request : GenerateContentRequest) : JStr :=
  let u0 := js "Create " ++ contentTypeName request.contentType ++
    js " content based on: " ++ request.prompt
  let u1 :=
    match request.length with
    | some len => u0 ++ js " Length: " ++ lengthInstructions len ++ js "."
    | none => u0
  match request.keywords with
  | some ks =>
    if ks.length > 0 then
      u1 ++ js " Include these keywords naturally: " ++ joinSep (js ", ") ks ++ js "."
    else u1
  | none => u1

/-! ## `AIService.calculateConfidence` -/

/-- The keywords that match `content` case-insensitively as substrings —
the filter in `calculateConfidence`. -/
def matchedKeywords (content : JStr) (ks : List JStr) : List JStr :=
  ks.filter (fun keyword => jsIncludes (jsToLower content) (jsToLower keyword))

/-- Embedding of `AIService.calculateConfidence`.  The result is `none`
(JavaScript `NaN`) exactly when `request.keywords` is the empty array: the
source guards the keyword bonus with the truthy test `if (request.keywords)`,
which an empty array passes, and then divides by `request.keywords.length = 0`
(`0 / 0 = NaN`), and `NaN` propagates through `+` and `Math.min`. -/
def calculateConfidence (content : JStr) (request : GenerateContentRequest) :
    Option ℚ :=
  let base : ℚ := 8/10
  let wordCount := (splitChar ' ' content).length
  let c1 : ℚ :=
    if request.length = some .short ∧ wordCount ≤ 50 then base + 1/10
    else if request.length = some .medium ∧ 50 < wordCount ∧ wordCount ≤ 200 then
      base + 1/10
    else if request.length = some .long ∧ 200 < wordCount then base + 1/10
    else base
  match request.keywords with
  | none => some (min c1 1)
  | some ks =>
    if ks.length = 0 then none
    else
      let keywordMatches : ℚ := (matchedKeywords content ks).length
      some (min (c1 + keywordMatches / (ks.length : ℚ) * (1/10)) 1)

/-! ## `AIService.parseGeneratedContent` -/

/-- Embedding of `AIService.parseGeneratedContent`. -/
def parseGeneratedContent (generatedText : JStr)
    (request : GenerateContentRequest) : ContentSuggestion :=
  let lines := (splitChar '\n' generatedText).filter
    (fun line => (jsTrim line).length > 0)
  let titled : Option JStr × JStr :=
    if lines.length > 1 ∧ (lines.headD []).length < 100 ∧
        startsUpper (lines.headD []) then
      (some (jsTrim (lines.headD [])), jsTrim (joinSep (js "\n") (lines.drop 1)))
    else
      (none, jsTrim generatedText)
  { content := titled.2
    title := titled.1
    confidence := calculateConfidence titled.2 request }

/-! ## The fallible operations -/

/-- Embedding of `AIService.generateContent`: the provider outcome for the
single issued call is an explicit argument; any provider error is caught and
re-thrown with a fixed message. -/
def generateContent (request : GenerateContentRequest)
    (providerResult : Except GenError JStr) : Except GenError ContentSuggestion :=
  match providerResult with
  | .error _ => .error (.generationFailure "Failed to generate content. Please try again.")
  | .ok generatedText => .ok (parseGeneratedContent generatedText request)

/-- The request a variation call issues: the original with a fixed prompt
suffix. -/
def variationRequest (request : GenerateContentRequest) : GenerateContentRequest :=
  { request with prompt := request.prompt ++ js " (Generate a unique variation)" }

/-- Embedding of `Promise.all`: the first rejection rejects the whole batch,
otherwise all fulfilled values are collected in issuance order. -/
def collectResults : List (Except GenError ContentSuggestion) →
    Except GenError (List ContentSuggestion)
  | [] => .ok []
  | .error e :: _ => .error e
  | .ok r :: rest =>
    match collectResults rest with
    | .error e => .error e
    | .ok rs => .ok (r :: rs)

/-- Embedding of `results.map((result, index) => ...)` in
`generateMultipleVariations`: the element at offset `j` of the argument list
receives index `i + j`; the source calls it with `i = 0`. -/
def decayFrom (i : ℕ) : List ContentSuggestion → List ContentSuggestion
  | [] => []
  | r :: rest =>
    { r with confidence := r.confidence.map (fun c => c * (1 - (i : ℚ) * (1/10))) }
      :: decayFrom (i + 1) rest

/-- Embedding of `AIService.generateMultipleVariations`: `provider i` is the
outcome of the `i`-th issued call (issuance order `0, …, count-1`). -/
def generateMultipleVariations (request : GenerateContentRequest) (count : ℕ)
    (provider : ℕ → Except GenError JStr) : Except GenError (List ContentSuggestion) :=
  let promises := (List.range count).map
    (fun i => generateContent (variationRequest request) (provider i))
  match collectResults promises with
  | .error _ => .error (.generationFailure "Failed to generate content variations.")
  | .ok results => .ok (decayFrom 0 results)

inductive ImprovementType
  | engagement | clarity | seo | tone
deriving DecidableEq

def improvementPrompts (targetAudience : Option JStr) : ImprovementType → JStr
  | .engagement => js "Make this content more engaging and compelling"
  | .clarity => js "Improve the clarity and readability of this content"
  | .seo => js "Optimize this content for search engines while maintaining readability"
  | .tone =>
    js "Adjust the tone of this content to better match the " ++
      (match targetAudience with
       | some a => if a = [] then js "target audience" else a
       | none => js "target audience")

/-- Embedding of `AIService.improvContent` (the source spells it without the
`e`): rewrites the inputs into a single-shot `generateContent` call. -/
def improvContent (originalContent : JStr) (improvementType : ImprovementType)
    (targetAudience : Option JStr) (providerResult : Except GenError JStr) :
    Except GenError ContentSuggestion :=
  let prompt := improvementPrompts targetAudience improvementType ++ js ":\n\n" ++
    originalContent
  generateContent
    { prompt := prompt
      contentType := .post
      targetAudience := targetAudience }
    providerResult

/-- Parsing stage of `AIService.generateHashtags`: split on commas, trim each
token, remove its first `'#'`, drop empties, keep the first `count`. -/
def parseHashtagText (generatedText : JStr) (count : ℕ) : List JStr :=
  (((splitChar ',' generatedText).map
    (fun tag => removeFirstHash (jsTrim tag))).filter
      (fun tag => tag.length > 0)).take count

/-- Embedding of `AIService.generateHashtags`: provider failure is swallowed
and yields `[]`.  In the source, `content` only feeds the prompt string sent
to the provider, whose answer is the `providerResult` argument here, so the
model does not consume `content` further. -/
def generateHashtags (content : JStr) (count : ℕ)
    (providerResult : Except GenError JStr) : List JStr :=
  match providerResult with
  | .error _ => []
  | .ok generatedText => parseHashtagText generatedText count

/-- The `count` bound the external route layer (`routes/ai.ts`, Joi schema
`count: Joi.number().min(2).max(5).default(3)`) enforces on
`/variations`. -/
def variationsCountAllowed (count : ℕ) : Prop := 2 ≤ count ∧ count ≤ 5

instance : DecidablePred variationsCountAllowed := fun _ => instDecidableAnd

/-! ## Spec-side definitions

These follow the wording of the specification and the claims (not the
source); the theorems below compare the source embedding against them. -/

/-- Whether a provider outcome is a fulfilled response. -/
def isOkB : Except GenError JStr → Bool
  | .ok _ => true
  | .error _ => false

/-- The output parser as claim C4 words it: the raw text is split into
non-empty TRIMMED lines, and the two title checks are made on the (trimmed)
first line.  Returns the `(title, content)` pair. -/
def claimParserC4 (generatedText : JStr) : Option JStr × JStr :=
  let lines := ((splitChar '\n' generatedText).map jsTrim).filter
    (fun line => !line.isEmpty)
  if 2 ≤ lines.length ∧ (lines.headD []).length < 100 ∧
      startsUpper (lines.headD []) then
    (some (lines.headD []), jsTrim (joinSep (js "\n") (lines.drop 1)))
  else
    (none, jsTrim generatedText)

/-- The output parser as the amended claim describes it: lines that are
non-empty after trimming (but not themselves trimmed), with the two title
checks made on the raw first line; the title is the trimmed first line and
the content is the remaining raw lines rejoined with newlines and trimmed. -/
def specParser (generatedText : JStr) : Option JStr × JStr :=
  let lines := (splitChar '\n' generatedText).filter
    (fun line => jsTrim line ≠ [])
  if 2 ≤ lines.length ∧ (lines.headD []).length < 100 ∧
      startsUpper (lines.headD []) then
    (some (jsTrim (lines.headD [])), jsTrim (joinSep (js "\n") (lines.drop 1)))
  else
    (none, jsTrim generatedText)

/-- Stripping one LEADING hash symbol from a token, as claim C7 words it. -/
def stripLeadingHash : JStr → JStr
  | '#' :: rest => rest
  | l => l

/-- The hashtag pipeline as claim C7 states it: split on commas, trim,
strip a leading hash, discard empty tokens, truncate to `count`. -/
def claimHashtagsC7 (raw : JStr) (count : ℕ) : List JStr :=
  (((splitChar ',' raw).map (fun tag => stripLeadingHash (jsTrim tag))).filter
    (fun tag => !tag.isEmpty)).take count

/-- The hashtag pipeline as the amended claim states it: identical except
that the FIRST hash symbol anywhere in the trimmed token is removed. -/
def specHashtags (raw : JStr) (count : ℕ) : List JStr :=
  (((splitChar ',' raw).map (fun tag => removeFirstHash (jsTrim tag))).filter
    (fun tag => !tag.isEmpty)).take count

/-- The confidence formula as the amended claim words it: a base of `0.8`,
plus `0.1` when the word count falls in the band selected by the request's
`length`, plus `0.1` times the matched fraction when `keywords` is present
and non-empty, clamped to at most `1.0`. -/
def confidenceSpec (content : JStr) (request : GenerateContentRequest) : ℚ :=
  let wordCount := (splitChar ' ' content).length
  let lengthBonus : ℚ :=
    if (request.length = some .short ∧ wordCount ≤ 50) ∨
        (request.length = some .medium ∧ 50 < wordCount ∧ wordCount ≤ 200) ∨
        (request.length = some .long ∧ 200 < wordCount) then 1/10 else 0
  let keywordBonus : ℚ :=
    match request.keywords with
    | some ks =>
      if ks ≠ [] then
        ((matchedKeywords content ks).length : ℚ) / (ks.length : ℚ) * (1/10)
      else 0
    | none => 0
  min (8/10 + lengthBonus + keywordBonus) 1

/-- The system instruction as claim C9 describes it: the fixed role
description for the content type, then the tone clause when `tone` is
present, then the audience clause when `targetAudience` is present, then
always the fixed closing instruction. -/
def systemPromptSpec (request : GenerateContentRequest) : JStr :=
  contentTypeInstructions request.contentType ++
  (match request.tone with
   | some t => js " " ++ toneInstructions t
   | none => []) ++
  (match request.targetAudience with
   | some a => js " Target audience: " ++ a ++ js "."
   | none => []) ++
  js " Provide high-quality, original content that is engaging and relevant."

/-- The user instruction as claim C9 describes it. -/
def userPromptSpec (request : GenerateContentRequest) : JStr :=
  js "Create " ++ contentTypeName request.contentType ++
    js " content based on: " ++ request.prompt ++
  (match request.length with
   | some len => js " Length: " ++ lengthInstructions len ++ js "."
   | none => []) ++
  (match request.keywords with
   | some ks =>
     if ks ≠ [] then
       js " Include these keywords naturally: " ++ joinSep (js ", ") ks ++ js "."
     else []
   | none => [])

/-! ## Concrete fixtures for witnesses and counterexamples -/

/-- A fixed request reused for the concrete test vectors. -/
def reqBasic : GenerateContentRequest :=
  { prompt := js "Announce our new product line to loyal customers"
    contentType := .post }

/-- A provider that always fulfills with the same short body. -/
def providerOk : ℕ → Except GenError JStr :=
  fun _ => .ok (js "Body text here")

/-- A provider whose second issued call rejects. -/
def providerPartial : ℕ → Except GenError JStr :=
  fun i =>
    if i = 0 then .ok (js "Body text here")
    else .error (.generationFailure "provider unavailable")

/-- A request whose `keywords` field is present but holds the empty list
(the external route schema accepts such a body). -/
def reqEmptyKeywordsC2 : GenerateContentRequest :=
  { prompt := js "Write a promo post for our weekend savings event"
    contentType := .social
    keywords := some [] }

/-- Another request with a present-but-empty `keywords` list. -/
def reqEmptyKeywordsC3 : GenerateContentRequest :=
  { prompt := js "Tell customers about our launch"
    contentType := .post
    keywords := some [] }

/-! ## Supporting lemmas -/

lemma jsTrim_eq_nil_iff (l : JStr) : jsTrim l = [] ↔ ∀ c ∈ l, jsIsWs c = true := by
  unfold jsTrim dropRightWhileP
  rw [List.reverse_eq_nil_iff, List.dropWhile_eq_nil_iff]
  constructor
  · intro h c hc
    rcases List.mem_append.1
      ((List.takeWhile_append_dropWhile (p := jsIsWs) (l := l)) ▸ hc) with h1 | h1
    · exact List.mem_takeWhile_imp h1
    · exact h c (List.mem_reverse.2 h1)
  · intro h c hc
    exact h c ((List.dropWhile_sublist jsIsWs).subset (List.mem_reverse.1 hc))

lemma jsTrim_ne_nil (l : JStr) (c : Char) (hc : c ∈ l) (hw : jsIsWs c = false) :
    jsTrim l ≠ [] := by
  intro h
  have := (jsTrim_eq_nil_iff l).1 h c hc
  simp [hw] at this

lemma exists_nonWs_of_jsTrim_ne_nil (l : JStr) (h : jsTrim l ≠ []) :
    ∃ c ∈ l, jsIsWs c = false := by
  by_contra hc
  push_neg at hc
  exact h ((jsTrim_eq_nil_iff l).2 (fun c hcl => by
    have := hc c hcl
    cases hb : jsIsWs c with
    | true => rfl
    | false => exact absurd hb this))

lemma mem_joinSep (sep : JStr) (L : List JStr) (l : JStr) (hl : l ∈ L)
    (c : Char) (hc : c ∈ l) : c ∈ joinSep sep L := by
  induction L with
  | nil => simp at hl
  | cons x rest ih =>
    cases rest with
    | nil =>
      have hx : l = x := by simpa using hl
      subst hx
      simpa [joinSep] using hc
    | cons y rest2 =>
      simp only [joinSep, List.mem_append]
      rcases List.mem_cons.1 hl with h | h
      · subst h
        exact Or.inl (Or.inl hc)
      · exact Or.inr (ih h)

/-- The body produced by `parseGeneratedContent` is non-empty whenever the raw
text is non-empty after trimming. -/
lemma parse_content_ne_nil (t : JStr) (request : GenerateContentRequest)
    (h : jsTrim t ≠ []) : (parseGeneratedContent t request).content ≠ [] := by
  unfold parseGeneratedContent
  set lines := (splitChar '\n' t).filter (fun line => (jsTrim line).length > 0) with hlines
  simp only
  split
  · next hcond =>
    have hlen : 0 < (lines.drop 1).length := by
      rw [List.length_drop]
      omega
    obtain ⟨l0, hl0⟩ := List.exists_mem_of_length_pos hlen
    have hl0mem : l0 ∈ lines := List.mem_of_mem_drop hl0
    have hl0trim : jsTrim l0 ≠ [] := by
      have := List.of_mem_filter hl0mem
      simp only [decide_eq_true_eq] at this
      intro hnil
      rw [hnil] at this
      simp at this
    obtain ⟨c, hcmem, hcw⟩ := exists_nonWs_of_jsTrim_ne_nil l0 hl0trim
    exact jsTrim_ne_nil _ c (mem_joinSep _ _ _ hl0 c hcmem) hcw
  · exact h

/-- When `keywords` is not a present-but-empty list, `calculateConfidence`
yields an actual number in `[0, 1]`. -/
lemma calculateConfidence_mem (content : JStr) (request : GenerateContentRequest)
    (h : request.keywords ≠ some []) :
    ∃ q : ℚ, calculateConfidence content request = some q ∧ 0 ≤ q ∧ q ≤ 1 := by
  unfold calculateConfidence
  set wordCount := (splitChar ' ' content).length
  set c1 : ℚ :=
    if request.length = some .short ∧ wordCount ≤ 50 then 8/10 + 1/10
    else if request.length = some .medium ∧ 50 < wordCount ∧ wordCount ≤ 200 then
      8/10 + 1/10
    else if request.length = some .long ∧ 200 < wordCount then 8/10 + 1/10
    else 8/10 with hc1
  have hc1pos : 0 ≤ c1 := by
    rw [hc1]
    split_ifs <;> norm_num
  match hks : request.keywords with
  | none =>
    exact ⟨min c1 1, rfl, le_min hc1pos (by norm_num), min_le_right _ _⟩
  | some ks =>
    have hne : ks ≠ [] := by
      intro hnil
      rw [hnil] at hks
      exact h hks
    have hlen : ks.length ≠ 0 := by
      simpa [List.length_eq_zero] using hne
    simp only [hlen, if_false]
    refine ⟨_, rfl, ?_, min_le_right _ _⟩
    refine le_min ?_ (by norm_num)
    have hnum : (0:ℚ) ≤ ((matchedKeywords content ks).length : ℚ) := Nat.cast_nonneg _
    have hden : (0:ℚ) < (ks.length : ℚ) := by
      exact_mod_cast Nat.pos_of_ne_zero hlen
    positivity

lemma collectResults_map_ok (rs : List ContentSuggestion) :
    collectResults (rs.map Except.ok) = .ok rs := by
  induction rs with
  | nil => rfl
  | cons r rest ih => simp [collectResults, ih]

lemma collectResults_ok_elim (l : List (Except GenError ContentSuggestion))
    (rs : List ContentSuggestion) (h : collectResults l = .ok rs) :
    l = rs.map Except.ok := by
  induction l generalizing rs with
  | nil =>
    simp only [collectResults, Except.ok.injEq] at h
    subst h
    rfl
  | cons x rest ih =>
    cases x with
    | error e => simp [collectResults] at h
    | ok r =>
      simp only [collectResults] at h
      cases hrest : collectResults rest with
      | error e => rw [hrest] at h; cases h
      | ok rs2 =>
        rw [hrest] at h
        simp only [Except.ok.injEq] at h
        subst h
        simp [ih rs2 hrest]

lemma collectResults_eq_error (l : List (Except GenError ContentSuggestion))
    (h : ∃ x ∈ l, ∀ r, x ≠ Except.ok r) : ∃ e, collectResults l = .error e := by
  induction l with
  | nil => simp at h
  | cons x rest ih =>
    obtain ⟨y, hy, hne⟩ := h
    cases x with
    | error e => exact ⟨e, rfl⟩
    | ok r =>
      rcases List.mem_cons.1 hy with hyx | hyrest
      · exact absurd hyx (hne r)
      · obtain ⟨e, he⟩ := ih ⟨y, hyrest, hne⟩
        exact ⟨e, by simp [collectResults, he]⟩

lemma decayFrom_length (i : ℕ) (rs : List ContentSuggestion) :
    (decayFrom i rs).length = rs.length := by
  induction rs generalizing i with
  | nil => rfl
  | cons r rest ih => simp [decayFrom, ih]

lemma decayFrom_get (i : ℕ) (rs : List ContentSuggestion) (j : ℕ)
    (hj : j < rs.length) (hj' : j < (decayFrom i rs).length) :
    (decayFrom i rs).get ⟨j, hj'⟩ =
      { rs.get ⟨j, hj⟩ with
        confidence := (rs.get ⟨j, hj⟩).confidence.map
          (fun c => c * (1 - ((i + j : ℕ) : ℚ) * (1/10))) } := by
  induction rs generalizing i j with
  | nil => cases hj
  | cons r rest ih =>
    cases j with
    | zero => simp [decayFrom]
    | succ j2 =>
      have hj2 : j2 < rest.length := by simpa using hj
      have hj2' : j2 < (decayFrom (i + 1) rest).length := by
        rw [decayFrom_length]; exact hj2
      have hrec := ih (i + 1) j2 hj2 hj2'
      have hnat : i + 1 + j2 = i + (j2 + 1) := by omega
      rw [hnat] at hrec
      simpa [decayFrom] using hrec

lemma mem_decayFrom (s : ContentSuggestion) (i : ℕ) (rs : List ContentSuggestion)
    (h : s ∈ decayFrom i rs) :
    ∃ j, ∃ hj : j < rs.length, s =
      { rs.get ⟨j, hj⟩ with
        confidence := (rs.get ⟨j, hj⟩).confidence.map
          (fun c => c * (1 - ((i + j : ℕ) : ℚ) * (1/10))) } := by
  obtain ⟨⟨j, hj'⟩, hget⟩ := List.mem_iff_get.1 h
  have hj : j < rs.length := by
    have := hj'
    rwa [decayFrom_length] at this
  exact ⟨j, hj, by rw [← hget, decayFrom_get i rs j hj hj']⟩

/-- The decay multiplier keeps a `[0,1]` score inside `[0,1]` as long as the
variation index is at most `10`. -/
lemma decay_bound (q : ℚ) (j : ℕ) (h0 : 0 ≤ q) (h1 : q ≤ 1) (hj : j ≤ 10) :
    0 ≤ q * (1 - (j : ℚ) * (1/10)) ∧ q * (1 - (j : ℚ) * (1/10)) ≤ 1 := by
  have hjq : (j : ℚ) ≤ 10 := by exact_mod_cast hj
  have hm0 : 0 ≤ 1 - (j : ℚ) * (1/10) := by linarith
  have hm1 : 1 - (j : ℚ) * (1/10) ≤ 1 := by
    have : 0 ≤ (j : ℚ) := Nat.cast_nonneg j
    linarith
  constructor
  · exact mul_nonneg h0 hm0
  · calc q * (1 - (j : ℚ) * (1/10)) ≤ q * 1 := mul_le_mul_of_nonneg_left hm1 h0
      _ = q := mul_one q
      _ ≤ 1 := h1

/-- Extracting the per-index behaviour of `generateMultipleVariations` when
the batch succeeds. -/
lemma generateMultipleVariations_ok_elim (request : GenerateContentRequest)
    (count : ℕ) (provider : ℕ → Except GenError JStr)
    (l : List ContentSuggestion)
    (h : generateMultipleVariations request count provider = .ok l) :
    ∃ rs : List ContentSuggestion,
      rs.length = count ∧ l = decayFrom 0 rs ∧
      ∀ j, ∀ hj : j < rs.length,
        generateContent (variationRequest request) (provider j) =
          .ok (rs.get ⟨j, hj⟩) := by
  unfold generateMultipleVariations at h
  simp only at h
  cases hcol : collectResults ((List.range count).map
      (fun i => generateContent (variationRequest request) (provider i))) with
  | error e => rw [hcol] at h; cases h
  | ok rs =>
    rw [hcol] at h
    simp only [Except.ok.injEq] at h
    have hmap := collectResults_ok_elim _ _ hcol
    have hlen : rs.length = count := by
      have := congrArg List.length hmap
      simpa using this.symm
    refine ⟨rs, hlen, h.symm, ?_⟩
    intro j hj
    have h1 : ((List.range count).map
        (fun i => generateContent (variationRequest request) (provider i))).get? j =
        (rs.map Except.ok).get? j := by rw [hmap]
    rw [List.get?_map, List.get?_map, List.get?_range (hlen ▸ hj),
      List.get?_eq_get hj] at h1
    simpa using h1

/-! ## The claims -/

/-- C10: the service-level `generateMultipleVariations` imposes no bound on
`count`: with `count = 0` it returns `.ok []` for every provider (so it
issues no provider call), while the external route layer's schema rejects a
count of `0` (its range is `2..5`). -/
theorem ai_c10 (request : GenerateContentRequest)
    (provider : ℕ → Except GenError JStr) :
    generateMultipleVariations request 0 provider = .ok [] ∧
      ¬ variationsCountAllowed 0 := by
  exact ⟨rfl, by decide⟩

/-- C8: on a provider failure, `generateContent` and `improvContent` propagate
a `GenerationFailure` and `generateMultipleVariations` fails the whole batch,
while `generateHashtags` swallows the failure and returns `[]` — the only
call path that does so. -/
theorem ai_c8 (request : GenerateContentRequest) (content orig : JStr) (n : ℕ)
    (improvementType : ImprovementType) (targetAudience : Option JStr)
    (e : GenError) (count : ℕ) (hcount : 0 < count) :
    generateContent request (.error e) =
      .error (.generationFailure "Failed to generate content. Please try again.") ∧
    generateHashtags content n (.error e) = [] ∧
    improvContent orig improvementType targetAudience (.error e) =
      .error (.generationFailure "Failed to generate content. Please try again.") ∧
    generateMultipleVariations request count (fun _ => .error e) =
      .error (.generationFailure "Failed to generate content variations.") := by
  refine ⟨rfl, rfl, rfl, ?_⟩
  cases count with
  | zero => omega
  | succ k =>
    unfold generateMultipleVariations
    rw [List.range_succ_eq_map]
    simp only [List.map_cons]
    rfl

/-- Witness for C8 at a concrete request, improvement call, hashtag call and
a two-call variation batch. -/
theorem ai_c8_witness :
    generateContent reqBasic (.error (.generationFailure "provider down")) =
      .error (.generationFailure "Failed to generate content. Please try again.") :=
  (ai_c8 reqBasic (js "Spring collection launch") (js "Old marketing copy") 10
    .clarity none (.generationFailure "provider down") 2 (by decide)).1

/-- C3 (code bug): with a present-but-empty `keywords` list the source enters
the keyword branch (an empty array is truthy) and divides by zero, so the
confidence of the non-decayed `generateContent` path is `NaN` (modelled
`none`) — not a well-defined number at most `1.0`. -/
theorem ai_c3_nan_eval :
    (generateContent reqEmptyKeywordsC3
        (Except.ok (js "Our product launch is today"))).toOption.map
      ContentSuggestion.confidence = some none ∧
    calculateConfidence (js "Our product launch is today") reqEmptyKeywordsC3 =
      none := by
  decide

/-- Counterexample to C1 as stated: a whitespace-only provider text yields a
suggestion whose `content` is empty. -/
theorem ai_c1_counterexample :
    (generateContent reqBasic (Except.ok (js "   "))).toOption.map
      ContentSuggestion.content = some [] := by
  decide

/-- Counterexample to C2 as stated: for a request whose `keywords` is a
present-but-empty list the code returns no number at all (`NaN`, modelled
`none`), so the confidence does not equal the claimed base-plus-bonuses
value for every request. -/
theorem ai_c2_counterexample :
    calculateConfidence (js "Big savings this weekend") reqEmptyKeywordsC2 =
      none := by
  decide

/-- Counterexample to C4 as stated: on a first line with leading whitespace
the claimed parser (which checks the trimmed first line) finds a title, but
the code tests the raw first line against `/^[A-Z]/` and finds none. -/
theorem ai_c4_counterexample :
    (claimParserC4 (js " Great News\nThis is the body.")).1 =
      some (js "Great News") ∧
    (parseGeneratedContent (js " Great News\nThis is the body.") reqBasic).title =
      none := by
  decide

/-- Counterexample to C7 as stated: `replace` removes the first hash anywhere
in the token, not only a leading one, so the code and the claimed pipeline
disagree on a token with an interior hash. -/
theorem ai_c7_counterexample :
    generateHashtags (js "Autumn fashion picks") 5 (Except.ok (js "mid#tag")) =
      [js "midtag"] ∧
    claimHashtagsC7 (js "mid#tag") 5 = [js "mid#tag"] ∧
    js "midtag" ≠ js "mid#tag" := by
  decide

/-- C7 (amended): on a successful provider response `generateHashtags`
returns the comma-split, trimmed tokens with their FIRST hash symbol
(anywhere in the token) removed, empties discarded, truncated to the first
`count`; the result never has more than `count` elements, and the documented
example parses as specified. -/
theorem ai_c7 :
    (∀ content raw n, generateHashtags content n (.ok raw) = specHashtags raw n) ∧
    (∀ content raw n, (generateHashtags content n (.ok raw)).length ≤ n) ∧
    generateHashtags (js "Summer sale on retail items") 2
      (Except.ok (js "#sale, #deals , #retail")) = [js "sale", js "deals"] := by
  have hmain : ∀ raw n, parseHashtagText raw n = specHashtags raw n := by
    intro raw n
    unfold parseHashtagText specHashtags
    congr 1
    refine List.filter_congr ?_
    intro a _
    cases a <;> simp
  refine ⟨fun _ raw n => hmain raw n, fun _ raw n => ?_, by decide⟩
  show (parseHashtagText raw n).length ≤ n
  unfold parseHashtagText
  exact List.length_take_le n _

/-- C4 (amended): the parser splits the raw text into the lines that are
non-empty after trimming (the lines themselves are NOT trimmed); exactly when
there are at least two such lines, the raw first line is shorter than 100
characters and the raw first line starts with an ASCII uppercase letter, the
title is the trimmed first line and the content is the remaining raw lines
rejoined with newlines and trimmed; otherwise there is no title and the
content is the whole trimmed raw text.  The three documented examples behave
as stated. -/
theorem ai_c4 :
    (∀ t request, ((parseGeneratedContent t request).title,
        (parseGeneratedContent t request).content) = specParser t) ∧
    ((parseGeneratedContent (js "Great News\nThis is the body.") reqBasic).title =
        some (js "Great News") ∧
      (parseGeneratedContent (js "Great News\nThis is the body.") reqBasic).content =
        js "This is the body.") ∧
    ((parseGeneratedContent (js "a single line of generated output") reqBasic).title =
        none ∧
      (parseGeneratedContent (js "  a single line of generated output  ") reqBasic).content =
        jsTrim (js "  a single line of generated output  ")) ∧
    (parseGeneratedContent (js "Aaaaaaaaaaaaaaaaaaaaaaaaaaaaaaaaaaaaaaaaaaaaaaaaaaaaaaaaaaaaaaaaaaaaaaaaaaaaaaaaaaaaaaaaaaaaaaaaaaaaaaaaaa\nsecond line here") reqBasic).title =
      none := by
  refine ⟨?_, by decide, by decide, by decide⟩
  intro t request
  have hfilter : (splitChar '\n' t).filter (fun line => (jsTrim line).length > 0) =
      (splitChar '\n' t).filter (fun line => jsTrim line ≠ []) := by
    refine List.filter_congr ?_
    intro a _
    cases h : jsTrim a <;> simp [h]
  simp only [parseGeneratedContent, specParser, hfilter]
  split
  · next h1 =>
    obtain ⟨ha, hb, hc2⟩ := h1
    split
    · next h2 => rfl
    · next h2 => exact absurd ⟨by omega, hb, hc2⟩ h2
  · next h1 =>
    split
    · next h2 =>
      obtain ⟨ha, hb, hc2⟩ := h2
      exact absurd ⟨by omega, hb, hc2⟩ h1
    · next h2 => rfl

/-- C9: the prompt builder is a pure, deterministic function of the request,
and its two outputs have exactly the clause structure the claim describes
(role description, optional tone clause, optional audience clause, fixed
closing; and the create-line with optional length clause and optional
keywords clause). -/
theorem ai_c9 (request : GenerateContentRequest) :
    buildSystemPrompt request = systemPromptSpec request ∧
    buildUserPrompt request = userPromptSpec request := by
  constructor
  · unfold buildSystemPrompt systemPromptSpec
    cases request.tone <;> cases request.targetAudience <;>
      simp [List.append_assoc]
  · unfold buildUserPrompt userPromptSpec
    cases hks : request.keywords with
    | none => cases request.length <;> simp [List.append_assoc]
    | some ks =>
      cases ks with
      | nil => cases request.length <;> simp [List.append_assoc]
      | cons k rest => cases request.length <;> simp [List.append_assoc]

/-- C2 (amended): outside the present-but-empty-`keywords` case (where the
code yields `NaN`), the confidence equals the claimed base of `0.8` plus the
length-band bonus plus the keyword-coverage bonus, clamped at `1.0`; a
request with no `length` and no `keywords` scores exactly `0.8`, and one
with `length = short` and a 10-word content scores exactly `0.9`. -/
theorem ai_c2 (content : JStr) (request : GenerateContentRequest)
    (h : request.keywords ≠ some []) :
    calculateConfidence content request = some (confidenceSpec content request) ∧
    (∀ c r, r.length = none → r.keywords = none →
      calculateConfidence c r = some (8/10)) ∧
    (∀ c r, r.length = some .short → r.keywords = none →
      (splitChar ' ' c).length = 10 → calculateConfidence c r = some (9/10)) := by
  have harith : ∀ wc : ℕ, ∀ lo : Option LengthOpt,
      (if lo = some .short ∧ wc ≤ 50 then (8:ℚ)/10 + 1/10
       else if lo = some .medium ∧ 50 < wc ∧ wc ≤ 200 then 8/10 + 1/10
       else if lo = some .long ∧ 200 < wc then 8/10 + 1/10
       else 8/10) =
      8/10 + (if (lo = some .short ∧ wc ≤ 50) ∨
        (lo = some .medium ∧ 50 < wc ∧ wc ≤ 200) ∨
        (lo = some .long ∧ 200 < wc) then (1:ℚ)/10 else 0) := by
    intro wc lo
    by_cases hA : lo = some .short ∧ wc ≤ 50
    · rw [if_pos hA, if_pos (Or.inl hA)]
    · rw [if_neg hA]
      by_cases hB : lo = some .medium ∧ 50 < wc ∧ wc ≤ 200
      · rw [if_pos hB, if_pos (Or.inr (Or.inl hB))]
      · rw [if_neg hB]
        by_cases hC : lo = some .long ∧ 200 < wc
        · rw [if_pos hC, if_pos (Or.inr (Or.inr hC))]
        · rw [if_neg hC,
            if_neg (fun hor => hor.elim hA (fun h2 => h2.elim hB hC)),
            add_zero]
  refine ⟨?_, ?_, ?_⟩
  · cases hks : request.keywords with
    | none =>
      simp only [calculateConfidence, confidenceSpec, hks, harith, add_zero]
    | some ks =>
      have hne : ks ≠ [] := fun hnil => h (hnil ▸ hks)
      have hlen0 : ¬ ks.length = 0 := by
        simpa [List.length_eq_zero] using hne
      simp only [calculateConfidence, confidenceSpec, hks, harith, hlen0,
        if_false, hne, ne_eq, not_false_eq_true, if_true]
  · intro c r h1 h2
    simp [calculateConfidence, h1, h2]
    norm_num [min_def]
  · intro c r h1 h2 h3
    simp [calculateConfidence, h1, h2, h3]
    norm_num [min_def]

/-- The confidence a parsed suggestion carries is the score of its own body
against the request. -/
lemma parse_confidence (t : JStr) (request : GenerateContentRequest) :
    (parseGeneratedContent t request).confidence =
      calculateConfidence (parseGeneratedContent t request).content request := rfl

/-- A parsed suggestion from a non-blank raw text with well-formed keywords
has non-empty content and an in-range confidence. -/
lemma parse_suggestion_ok (t : JStr) (request : GenerateContentRequest)
    (ht : jsTrim t ≠ []) (hkw : request.keywords ≠ some []) :
    (parseGeneratedContent t request).content ≠ [] ∧
    ∃ q, (parseGeneratedContent t request).confidence = some q ∧
      0 ≤ q ∧ q ≤ 1 := by
  refine ⟨parse_content_ne_nil t request ht, ?_⟩
  rw [parse_confidence]
  exact calculateConfidence_mem _ request hkw

/-- C6: variation generation is all-or-nothing — it returns a list (of
exactly `count` elements) precisely when every issued call succeeds, and a
single failing call fails the whole batch with a `GenerationFailure` and no
partial results. -/
theorem ai_c6 (request : GenerateContentRequest) (count : ℕ)
    (provider : ℕ → Except GenError JStr) :
    ((∀ i, i < count → isOkB (provider i) = true) →
      ∃ l, generateMultipleVariations request count provider = .ok l ∧
        l.length = count) ∧
    ((∃ i, i < count ∧ isOkB (provider i) = false) →
      generateMultipleVariations request count provider =
        .error (.generationFailure "Failed to generate content variations.")) ∧
    (∀ l, generateMultipleVariations request count provider = .ok l →
      l.length = count ∧ ∀ i, i < count → isOkB (provider i) = true) := by
  refine ⟨?_, ?_, ?_⟩
  · intro hall
    have hmapeq : (List.range count).map
        (fun i => generateContent (variationRequest request) (provider i)) =
        ((List.range count).map (fun i => parseGeneratedContent
          ((provider i).toOption.getD []) (variationRequest request))).map
          Except.ok := by
      rw [List.map_map]
      refine List.map_congr_left ?_
      intro a ha
      have halt := hall a (List.mem_range.1 ha)
      cases hp : provider a with
      | ok t => simp [generateContent, hp, Except.toOption, Function.comp]
      | error e => rw [hp] at halt; simp [isOkB] at halt
    refine ⟨decayFrom 0 ((List.range count).map (fun i => parseGeneratedContent
      ((provider i).toOption.getD []) (variationRequest request))), ?_, ?_⟩
    · simp only [generateMultipleVariations, hmapeq, collectResults_map_ok]
    · rw [decayFrom_length, List.length_map, List.length_range]
  · intro hex
    obtain ⟨i, hi, hfail⟩ := hex
    obtain ⟨e, he⟩ : ∃ e, provider i = .error e := by
      cases hp : provider i with
      | ok t => rw [hp] at hfail; simp [isOkB] at hfail
      | error e2 => exact ⟨e2, rfl⟩
    have hmem : generateContent (variationRequest request) (provider i) ∈
        (List.range count).map
          (fun j => generateContent (variationRequest request) (provider j)) :=
      List.mem_map_of_mem _ (List.mem_range.2 hi)
    have hnotok : ∀ r, generateContent (variationRequest request) (provider i) ≠
        Except.ok r := by
      intro r
      rw [he]
      simp [generateContent]
    obtain ⟨e2, hcol⟩ := collectResults_eq_error _ ⟨_, hmem, hnotok⟩
    simp only [generateMultipleVariations, hcol]
  · intro l hl
    obtain ⟨rs, hlen, hdecay, hidx⟩ :=
      generateMultipleVariations_ok_elim request count provider l hl
    constructor
    · rw [hdecay, decayFrom_length, hlen]
    · intro i hi
      have hi' : i < rs.length := by omega
      have hone := hidx i hi'
      cases hp : provider i with
      | ok t => simp [isOkB]
      | error e => rw [hp] at hone; simp [generateContent] at hone

/-- Witness for C6: a two-call batch whose second issued call fails yields
the batch-level `GenerationFailure` and no partial result. -/
theorem ai_c6_witness :
    generateMultipleVariations reqBasic 2 providerPartial =
      .error (.generationFailure "Failed to generate content variations.") :=
  (ai_c6 reqBasic 2 providerPartial).2.1 ⟨1, by decide, rfl⟩

/-- C5: in a successful variation batch the `i`-th returned suggestion (in
issuance order, which the model indexes directly) carries the underlying
single-shot confidence multiplied by `1 - i*0.1`; in particular for
`count = 3` with identical underlying scores `c` the confidences are
`c, 0.9c, 0.8c` in order. -/
theorem ai_c5 (request : GenerateContentRequest) (count : ℕ)
    (provider : ℕ → Except GenError JStr) (l : List ContentSuggestion)
    (h : generateMultipleVariations request count provider = .ok l) :
    (l.length = count ∧
      ∀ i, ∀ hi : i < l.length, ∃ s,
        generateContent (variationRequest request) (provider i) = .ok s ∧
          (l.get ⟨i, hi⟩).confidence =
            s.confidence.map (fun c => c * (1 - (i : ℚ) * (1/10)))) ∧
    (∀ s : ContentSuggestion, ∀ c : ℚ, s.confidence = some c →
      (decayFrom 0 [s, s, s]).map ContentSuggestion.confidence =
        [some c, some (c * (9/10)), some (c * (8/10))]) := by
  obtain ⟨rs, hlen, hdecay, hidx⟩ :=
    generateMultipleVariations_ok_elim request count provider l h
  constructor
  · subst hdecay
    constructor
    · rw [decayFrom_length, hlen]
    · intro i hi
      have hi' : i < rs.length := by rwa [decayFrom_length] at hi
      refine ⟨rs.get ⟨i, hi'⟩, hidx i hi', ?_⟩
      rw [decayFrom_get 0 rs i hi' hi]
      simp
  · intro s c hc
    simp only [decayFrom, List.map_cons, List.map_nil, hc, Option.map_some]
    norm_num

/-- Witness for C5: a two-call batch against a constant fulfilling provider,
with the batch result discharged definitionally. -/
theorem ai_c5_witness :
    (decayFrom 0 [parseGeneratedContent (js "Body text here")
        (variationRequest reqBasic),
      parseGeneratedContent (js "Body text here")
        (variationRequest reqBasic)]).length = 2 :=
  ((ai_c5 reqBasic 2 providerOk _ rfl).1).1

/-- C1 (amended): every suggestion returned by `generateContent`,
`generateMultipleVariations` or `improvContent` has non-empty content and a
confidence within `[0,1]`, provided the raw provider text behind each call is
non-empty after trimming, the request's `keywords` is not a
present-but-empty list, and a variation batch has `count ≤ 11` (so the decay
multiplier `1 - i*0.1` stays non-negative). -/
theorem ai_c1 (request : GenerateContentRequest)
    (hkw : request.keywords ≠ some []) :
    (∀ t s, jsTrim t ≠ [] → generateContent request (.ok t) = .ok s →
      s.content ≠ [] ∧ ∃ q, s.confidence = some q ∧ 0 ≤ q ∧ q ≤ 1) ∧
    (∀ count provider l, count ≤ 11 →
      (∀ i t, i < count → provider i = .ok t → jsTrim t ≠ []) →
      generateMultipleVariations request count provider = .ok l →
      ∀ s ∈ l, s.content ≠ [] ∧ ∃ q, s.confidence = some q ∧ 0 ≤ q ∧ q ≤ 1) ∧
    (∀ orig improvementType targetAudience t s, jsTrim t ≠ [] →
      improvContent orig improvementType targetAudience (.ok t) = .ok s →
      s.content ≠ [] ∧ ∃ q, s.confidence = some q ∧ 0 ≤ q ∧ q ≤ 1) := by
  refine ⟨?_, ?_, ?_⟩
  · intro t s ht hs
    have : parseGeneratedContent t request = s := by
      simpa [generateContent] using hs
    subst this
    exact parse_suggestion_ok t request ht hkw
  · intro count provider l hcount hnws hl s hs
    obtain ⟨rs, hlen, hdecay, hidx⟩ :=
      generateMultipleVariations_ok_elim request count provider l hl
    subst hdecay
    obtain ⟨j, hj, hsj⟩ := mem_decayFrom s 0 rs hs
    have hone := hidx j hj
    cases hp : provider j with
    | error e => rw [hp] at hone; simp [generateContent] at hone
    | ok t =>
      rw [hp] at hone
      have hparse : parseGeneratedContent t (variationRequest request) =
          rs.get ⟨j, hj⟩ := by
        simpa [generateContent] using hone
      have ht : jsTrim t ≠ [] := hnws j t (by omega) hp
      have hkw2 : (variationRequest request).keywords ≠ some [] := hkw
      obtain ⟨hcont, q, hq, hq0, hq1⟩ :=
        parse_suggestion_ok t (variationRequest request) ht hkw2
      rw [hparse] at hcont hq
      have hj10 : (0 + j : ℕ) ≤ 10 := by omega
      obtain ⟨hd0, hd1⟩ := decay_bound q (0 + j) hq0 hq1 hj10
      subst hsj
      refine ⟨hcont, q * (1 - ((0 + j : ℕ) : ℚ) * (1/10)), ?_, hd0, hd1⟩
      show Option.map _ (rs.get ⟨j, hj⟩).confidence = _
      rw [hq]
      rfl
  · intro orig improvementType targetAudience t s ht hs
    have : parseGeneratedContent t
        { prompt := improvementPrompts targetAudience improvementType ++
            js ":\n\n" ++ orig
          contentType := .post
          targetAudience := targetAudience } = s := by
      simpa [improvContent, generateContent] using hs
    subst this
    exact parse_suggestion_ok t _ ht (by simp)

/-- Witness for C1 at a concrete request and provider text. -/
theorem ai_c1_witness :
    (parseGeneratedContent (js "Body text here") reqBasic).content ≠ [] ∧
    ∃ q, (parseGeneratedContent (js "Body text here") reqBasic).confidence =
      some q ∧ 0 ≤ q ∧ q ≤ 1 :=
  (ai_c1 reqBasic (by decide)).1 (js "Body text here") _ (by decide) rfl

/-- Witness for C2 at a concrete content and request. -/
theorem ai_c2_witness :
    calculateConfidence (js "Fresh deals every day") reqBasic =
      some (confidenceSpec (js "Fresh deals every day") reqBasic) :=
  (ai_c2 (js "Fresh deals every day") reqBasic (by decide)).1
